import Mathlib

/-! Shallow embedding of the fib-tour library (src/lib.rs): eight
implementations of the n-th Fibonacci number bounded to u32, each of
type fibonacci : Nat -> Option u32.  Machine integers are modelled as
Nat, with an explicit mod 2 ^ 32 exactly where the Rust code uses
wrapping arithmetic; Rust Option maps to Lean Option.  The
floating-point implementation fib_closed (Binet formula via f64 powf)
has no definable semantics here and is not embedded.

Alongside each plain model, an instrumented model (suffix I) returns
Option (Option Nat) where the outer none marks a panic: an unwrap of
None, an out-of-bounds index, a debug-mode overflowing add, or an
underflowing usize subtraction.  Proving fI n = some (f n) shows the
function never panics. -/

namespace FibTour

/-- the u32 modulus, 2 ^ 32 -/
def U32_MOD : Nat := 4294967296

/-- u32::MAX, 2 ^ 32 - 1 -/
def U32_MAX : Nat := 4294967295

/-- the high bit of a u32: !0 ^ (!0 >> 1) = 2 ^ 31 -/
def HI : Nat := 2147483648

/-- u32::checked_add (operands are u32 values, hence below 2 ^ 32) -/
def checked_add (x y : Nat) : Option Nat :=
  if x + y ≤ U32_MAX then some (x + y) else none

/-- loop of fib_vec: for i in 2..=n, dp.push(dp[i-2] + dp[i-1]).
The fuel argument k counts the remaining iterations (n + 1 - i); the
plain + of the Rust source is wrapping in release mode, hence the
mod U32_MOD. -/
def fibVecGo : List Nat → Nat → Nat → List Nat
  | dp, _, 0 => dp
  | dp, i, k+1 =>
      fibVecGo (dp ++ [(dp.getD (i-2) 0 + dp.getD (i-1) 0) % U32_MOD]) (i+1) k

/-- fib_vec from src/lib.rs: special cases n = 0 and n >= 48, then a
growing vector of the values, returning *dp.last().unwrap(). -/
def fib_vec (n : Nat) : Option Nat :=
  if n = 0 then some 0
  else if 48 ≤ n then none
  else some ((fibVecGo [0, 1] 2 (n - 1)).getLastD 0)

/-- loop of fib_vec_fancy: for i in 2..=n, dp.push(dp[i-2].checked_add(dp[i-1])?);
the ? makes the whole computation return None on overflow. -/
def fibVecFancyGo : List Nat → Nat → Nat → Option (List Nat)
  | dp, _, 0 => some dp
  | dp, i, k+1 =>
      match checked_add (dp.getD (i-2) 0) (dp.getD (i-1) 0) with
      | some z => fibVecFancyGo (dp ++ [z]) (i+1) k
      | none => none

/-- fib_vec_fancy from src/lib.rs: no pre-filtering of n; builds the
vector with checked adds and returns Some(dp[n]). -/
def fib_vec_fancy (n : Nat) : Option Nat :=
  (fibVecFancyGo [0, 1] 2 (n - 1)).map fun dp => dp.getD n 0

/-- loop of fib_array: repeat k times dp = [dp[1], dp[0].checked_add(dp[1])?]. -/
def fibArrayGo : Nat × Nat → Nat → Option (Nat × Nat)
  | dp, 0 => some dp
  | dp, k+1 =>
      match checked_add dp.1 dp.2 with
      | some z => fibArrayGo (dp.2, z) k
      | none => none

/-- fib_array from src/lib.rs: special case n = 0, then n - 1 rotations
of the two-slot array [0, 1], returning Some(dp[1]). -/
def fib_array (n : Nat) : Option Nat :=
  if n = 0 then some 0
  else (fibArrayGo (0, 1) (n - 1)).map fun dp => dp.2

/-- loop of fib_registered: while m > 0, advance two terms per
iteration with wrapping adds guarded by high-bit tests, breaking out
(m left unchanged, hence positive) when a high bit is seen.  Returns
the final (x, y, m).  The counter starts at n with the low bit
cleared and falls by 2 per iteration, so it is even throughout and
the odd arm below never arises from fib_registered; it is spelled out
(one body execution, after which the Nat-truncated 1 - 2 = 0 ends the
loop) only so the recursion is structural.  The instrumented model
fibRegLoopI flags that same arm as the debug-mode underflow panic. -/
def fibRegLoop : Nat → Nat → Nat → Nat × Nat × Nat
  | x, y, 0 => (x, y, 0)
  | x, y, 1 =>
      if y &&& HI = 0 then
        if ((x + y) % U32_MOD) &&& HI = 0 then
          ((x + y) % U32_MOD, (y + (x + y) % U32_MOD) % U32_MOD, 0)
        else ((x + y) % U32_MOD, y, 1)
      else (x, y, 1)
  | x, y, m+2 =>
      if y &&& HI = 0 then
        if ((x + y) % U32_MOD) &&& HI = 0 then
          fibRegLoop ((x + y) % U32_MOD) ((y + (x + y) % U32_MOD) % U32_MOD) m
        else ((x + y) % U32_MOD, y, m+2)
      else (x, y, m+2)

/-- fib_registered from src/lib.rs.  The initial counter is
m = n & !1, the low bit of n cleared, written here as 2 * (n / 2);
n & 1 = 0 is the parity test of the source. -/
def fib_registered (n : Nat) : Option Nat :=
  if 0 < (fibRegLoop 0 1 (2 * (n / 2))).2.2 then none
  else if n &&& 1 = 0 then some (fibRegLoop 0 1 (2 * (n / 2))).1
  else if (fibRegLoop 0 1 (2 * (n / 2))).1 &&& HI = 0 then
    some (fibRegLoop 0 1 (2 * (n / 2))).2.1
  else none

/-- body of the closure in fib_fold and in fib_lazy:
u32::checked_add(x, y).map(|z| (z, x)). -/
def fibStep (p : Nat × Nat) : Option (Nat × Nat) :=
  (checked_add p.1 p.2).map fun z => (z, p.1)

/-- the fold function of fib_fold: |regs, _| regs.and_then(fibStep). -/
def foldF (regs : Option (Nat × Nat)) (_ : Nat) : Option (Nat × Nat) :=
  regs.bind fibStep

/-- fib_fold from src/lib.rs: (0..n).fold(Some((0, 1)), foldF).map(|(x, _)| x). -/
def fib_fold (n : Nat) : Option Nat :=
  ((List.range n).foldl foldF (some (0, 1))).map Prod.fst

/-- state of the from_fn generator of fib_lazy after k pulls: the
closure starts from Some((0, 1)) and each pull replaces the state by
u32::checked_add(x, y).map(|z| (z, x)), leaving an exhausted (None)
state unchanged. -/
def lazyState : Nat → Option (Nat × Nat)
  | 0 => some (0, 1)
  | k+1 => (lazyState k).bind fibStep

/-- fib_lazy from src/lib.rs: the k-th pull yields the first component
of the state before that pull, and .nth(n) drains n + 1 terms keeping
the last, i.e. the yield of pull number n. -/
def fib_lazy (n : Nat) : Option Nat :=
  (lazyState n).map Prod.fst

/-- the static table F of fib_lookup, copied digit for digit from
src/lib.rs. -/
def F_TABLE : List Nat :=
  [0, 1, 1, 2, 3, 5, 8, 13, 21, 34, 55, 89, 144, 233, 377, 610, 987,
   1597, 2584, 4181, 6765, 10946, 17711, 28657, 46368, 75025, 121393,
   196418, 317811, 514229, 832040, 1346269, 2178309, 3524578, 5702887,
   9227465, 14930352, 24157817, 39088169, 63245986, 102334155,
   165580141, 267914296, 433494437, 701408733, 1134903170, 1836311903,
   2971215073]

/-- fib_lookup from src/lib.rs: F.get(n).copied(), a bounds-checked
index into the table. -/
def fib_lookup (n : Nat) : Option Nat :=
  F_TABLE[n]?

/-- instrumented loop of fib_vec: the gets are real Option lookups
whose unwrap panics (outer none) when absent, and the debug-mode +
panics on overflow. -/
def fibVecGoI : List Nat → Nat → Nat → Option (List Nat)
  | dp, _, 0 => some dp
  | dp, i, k+1 =>
      match dp[i-2]?, dp[i-1]? with
      | some a, some b =>
          if a + b ≤ U32_MAX then fibVecGoI (dp ++ [a + b]) (i+1) k else none
      | _, _ => none

/-- instrumented fib_vec: the outer none is a panic (an unwrap of a
failed get, an overflowing debug add, or dp.last().unwrap() on an
empty vector). -/
def fibVecI (n : Nat) : Option (Option Nat) :=
  if n = 0 then some (some 0)
  else if 48 ≤ n then some none
  else (fibVecGoI [0, 1] 2 (n - 1)).bind fun dp => dp.getLast?.map fun v => some v

/-- instrumented loop of fib_vec_fancy: an out-of-bounds dp[i-2] or
dp[i-1] panics (outer none); a failed checked_add is the normal
?-return (inner none). -/
def fibVecFancyGoI : List Nat → Nat → Nat → Option (Option (List Nat))
  | dp, _, 0 => some (some dp)
  | dp, i, k+1 =>
      match dp[i-2]?, dp[i-1]? with
      | some a, some b =>
          match checked_add a b with
          | some z => fibVecFancyGoI (dp ++ [z]) (i+1) k
          | none => some none
      | _, _ => none

/-- instrumented fib_vec_fancy: the final dp[n] also panics when out
of bounds. -/
def fibVecFancyI (n : Nat) : Option (Option Nat) :=
  (fibVecFancyGoI [0, 1] 2 (n - 1)).bind fun r =>
    match r with
    | none => some none
    | some dp => dp[n]?.map fun v => some v

/-- usize subtraction, which panics (none) on underflow. -/
def checkedSub (x y : Nat) : Option Nat :=
  if y ≤ x then some (x - y) else none

/-- instrumented fib_array: the only panic candidate is the usize
subtraction n - 1 in the loop bound 0..n - 1 (the fixed indices into
the two-element array cannot be out of bounds, and checked_add does
not panic). -/
def fibArrayI (n : Nat) : Option (Option Nat) :=
  if n = 0 then some (some 0)
  else (checkedSub n 1).map fun k => (fibArrayGo (0, 1) k).map fun dp => dp.2

/-- instrumented loop of fib_registered: the m -= 2 panics (none) when
m < 2. -/
def fibRegLoopI : Nat → Nat → Nat → Option (Nat × Nat × Nat)
  | x, y, 0 => some (x, y, 0)
  | x, y, 1 =>
      if y &&& HI = 0 then
        if ((x + y) % U32_MOD) &&& HI = 0 then
          none
        else some (((x + y) % U32_MOD, y, 1))
      else some ((x, y, 1))
  | x, y, m+2 =>
      if y &&& HI = 0 then
        if ((x + y) % U32_MOD) &&& HI = 0 then
          fibRegLoopI ((x + y) % U32_MOD) ((y + (x + y) % U32_MOD) % U32_MOD) m
        else some (((x + y) % U32_MOD, y, m+2))
      else some ((x, y, m+2))

/-- instrumented fib_registered. -/
def fibRegisteredI (n : Nat) : Option (Option Nat) :=
  (fibRegLoopI 0 1 (2 * (n / 2))).map fun r =>
    if 0 < r.2.2 then none
    else if n &&& 1 = 0 then some r.1
    else if r.1 &&& HI = 0 then some r.2.1
    else none

/-- the common output contract of the spec: present F(n) exactly when
F(n) fits in a u32. -/
def fibSpec (n : Nat) : Option Nat :=
  if Nat.fib n ≤ U32_MAX then some (Nat.fib n) else none

theorem fib46_eq : Nat.fib 46 = 1836311903 := by decide

theorem fib47_eq : Nat.fib 47 = 2971215073 := by decide

theorem fib48_eq : Nat.fib 48 = 4807526976 := by decide

theorem fib_le_max_iff (n : Nat) : Nat.fib n ≤ U32_MAX ↔ n ≤ 47 := by
  unfold U32_MAX
  constructor
  · intro h
    by_contra hn
    have h48 : Nat.fib 48 ≤ Nat.fib n := Nat.fib_mono (by omega)
    rw [fib48_eq] at h48
    omega
  · intro h
    have h47 : Nat.fib n ≤ Nat.fib 47 := Nat.fib_mono h
    rw [fib47_eq] at h47
    omega

theorem fib_lt_hi_iff (n : Nat) : Nat.fib n < HI ↔ n ≤ 46 := by
  unfold HI
  constructor
  · intro h
    by_contra hn
    have h47 : Nat.fib 47 ≤ Nat.fib n := Nat.fib_mono (by omega)
    rw [fib47_eq] at h47
    omega
  · intro h
    have h46 : Nat.fib n ≤ Nat.fib 46 := Nat.fib_mono h
    rw [fib46_eq] at h46
    omega

theorem and_hi_eq_zero_iff (v : Nat) (hv : v < U32_MOD) : v &&& HI = 0 ↔ v < HI := by
  unfold U32_MOD at hv
  have hHI : HI = 2 ^ 31 := by decide
  rw [hHI, Nat.and_two_pow, Nat.testBit_to_div_mod]
  rcases Nat.lt_or_ge v (2 ^ 31) with h | h
  · rw [Nat.div_eq_of_lt h]
    simpa using h
  · have hdiv : v / 2 ^ 31 = 1 := by
      have h1 : (2:Nat) ^ 31 = 2147483648 := by norm_num
      rw [h1]
      rw [h1] at h
      omega
    rw [hdiv]
    simp
    omega

theorem fib_add_sub (i : Nat) (hi : 2 ≤ i) :
    Nat.fib (i - 2) + Nat.fib (i - 1) = Nat.fib i := by
  have h2 : i - 2 + 2 = i := by omega
  have h1 : i - 2 + 1 = i - 1 := by omega
  have hf := @Nat.fib_add_two (i - 2)
  rw [h2, h1] at hf
  exact hf.symm

theorem range_map_fib_getD (i j : Nat) (h : j < i) :
    ((List.range i).map Nat.fib).getD j 0 = Nat.fib j := by
  rw [List.getD_eq_getElem?_getD, List.getElem?_map, List.getElem?_range h]
  rfl

theorem range_map_fib_succ (i : Nat) :
    (List.range (i + 1)).map Nat.fib
      = (List.range i).map Nat.fib ++ [Nat.fib i] := by
  rw [List.range_succ, List.map_append]
  rfl

theorem fibVecGo_spec : ∀ (k i : Nat), 2 ≤ i → i + k ≤ 48 →
    fibVecGo ((List.range i).map Nat.fib) i k = (List.range (i + k)).map Nat.fib := by
  intro k
  induction k with
  | zero => intro i hi hik; rfl
  | succ k ih =>
      intro i hi hik
      have hlt : Nat.fib i < U32_MOD := by
        have h47 : Nat.fib i ≤ Nat.fib 47 := Nat.fib_mono (by omega)
        rw [fib47_eq] at h47
        unfold U32_MOD
        omega
      have hstep :
          fibVecGo ((List.range i).map Nat.fib) i (k + 1)
            = fibVecGo ((List.range (i + 1)).map Nat.fib) (i + 1) k := by
        simp only [fibVecGo]
        rw [range_map_fib_getD i (i - 2) (by omega),
            range_map_fib_getD i (i - 1) (by omega),
            fib_add_sub i hi, Nat.mod_eq_of_lt hlt, ← range_map_fib_succ]
      rw [hstep, ih (i + 1) (by omega) (by omega)]
      have harith : i + 1 + k = i + (k + 1) := by omega
      rw [harith]

theorem fib_vec_eq_fibSpec (n : Nat) : fib_vec n = fibSpec n := by
  unfold fib_vec fibSpec
  rcases Nat.eq_zero_or_pos n with h0 | hpos
  · subst h0; rfl
  rcases Nat.lt_or_ge n 48 with hlt | hge
  · have hne : ¬ n = 0 := by omega
    have hle : Nat.fib n ≤ U32_MAX := (fib_le_max_iff n).mpr (by omega)
    rw [if_neg hne, if_neg (by omega), if_pos hle]
    have hinit : ([0, 1] : List Nat) = (List.range 2).map Nat.fib := by decide
    rw [hinit, fibVecGo_spec (n - 1) 2 (by omega) (by omega)]
    have harith : 2 + (n - 1) = n + 1 := by omega
    rw [harith, range_map_fib_succ, List.getLastD_concat]
  · have hne : ¬ n = 0 := by omega
    have hgt : ¬ Nat.fib n ≤ U32_MAX := by
      intro hle
      have := (fib_le_max_iff n).mp hle
      omega
    rw [if_neg hne, if_pos hge, if_neg hgt]

theorem fibVecFancyGo_spec : ∀ (k i : Nat), 2 ≤ i → Nat.fib (i - 1) ≤ U32_MAX →
    fibVecFancyGo ((List.range i).map Nat.fib) i k
      = if Nat.fib (i + k - 1) ≤ U32_MAX then some ((List.range (i + k)).map Nat.fib)
        else none := by
  intro k
  induction k with
  | zero =>
      intro i hi hprev
      have h : i + 0 - 1 = i - 1 := by omega
      rw [h, if_pos hprev]
      rfl
  | succ k ih =>
      intro i hi hprev
      have hca : checked_add (((List.range i).map Nat.fib).getD (i - 2) 0)
          (((List.range i).map Nat.fib).getD (i - 1) 0)
          = if Nat.fib i ≤ U32_MAX then some (Nat.fib i) else none := by
        rw [range_map_fib_getD i (i - 2) (by omega),
            range_map_fib_getD i (i - 1) (by omega)]
        unfold checked_add
        rw [fib_add_sub i hi]
      by_cases h : Nat.fib i ≤ U32_MAX
      · rw [if_pos h] at hca
        have hstep : fibVecFancyGo ((List.range i).map Nat.fib) i (k + 1)
            = fibVecFancyGo ((List.range (i + 1)).map Nat.fib) (i + 1) k := by
          simp only [fibVecFancyGo, hca, ← range_map_fib_succ]
        have hprev2 : Nat.fib (i + 1 - 1) ≤ U32_MAX := by
          have he : i + 1 - 1 = i := by omega
          rw [he]
          exact h
        rw [hstep, ih (i + 1) (by omega) hprev2]
        have h1 : i + 1 + k - 1 = i + (k + 1) - 1 := by omega
        have h2 : i + 1 + k = i + (k + 1) := by omega
        rw [h1, h2]
      · rw [if_neg h] at hca
        have hbig : ¬ Nat.fib (i + (k + 1) - 1) ≤ U32_MAX := by
          intro hle
          exact h (le_trans (Nat.fib_mono (by omega)) hle)
        rw [if_neg hbig]
        simp only [fibVecFancyGo, hca]

theorem fib_vec_fancy_eq_fibSpec (n : Nat) : fib_vec_fancy n = fibSpec n := by
  rcases Nat.eq_zero_or_pos n with h0 | hpos
  · subst h0; decide
  unfold fib_vec_fancy fibSpec
  have hinit : ([0, 1] : List Nat) = (List.range 2).map Nat.fib := by decide
  rw [hinit, fibVecFancyGo_spec (n - 1) 2 (by omega) (by decide)]
  have harith : 2 + (n - 1) - 1 = n := by omega
  have harith2 : 2 + (n - 1) = n + 1 := by omega
  rw [harith, harith2]
  by_cases h : Nat.fib n ≤ U32_MAX
  · rw [if_pos h, if_pos h]
    simp only [Option.map]
    rw [range_map_fib_getD (n + 1) n (by omega)]
  · rw [if_neg h, if_neg h]
    rfl

theorem fibArrayGo_spec : ∀ (k j : Nat), Nat.fib (j + 1) ≤ U32_MAX →
    fibArrayGo (Nat.fib j, Nat.fib (j + 1)) k
      = if Nat.fib (j + k + 1) ≤ U32_MAX
        then some (Nat.fib (j + k), Nat.fib (j + k + 1)) else none := by
  intro k
  induction k with
  | zero =>
      intro j h
      simp only [Nat.add_zero]
      rw [if_pos h]
      rfl
  | succ k ih =>
      intro j h
      have hca : checked_add (Nat.fib j) (Nat.fib (j + 1))
          = if Nat.fib (j + 2) ≤ U32_MAX then some (Nat.fib (j + 2)) else none := by
        unfold checked_add
        rw [← Nat.fib_add_two]
      by_cases h2 : Nat.fib (j + 2) ≤ U32_MAX
      · rw [if_pos h2] at hca
        have hstep : fibArrayGo (Nat.fib j, Nat.fib (j + 1)) (k + 1)
            = fibArrayGo (Nat.fib (j + 1), Nat.fib (j + 2)) k := by
          simp only [fibArrayGo, hca]
        have hrec := ih (j + 1) (by
          have he : j + 1 + 1 = j + 2 := by omega
          rw [he]
          exact h2)
        have he1 : Nat.fib (j + 1 + 1) = Nat.fib (j + 2) := by
          have : j + 1 + 1 = j + 2 := by omega
          rw [this]
        rw [hstep]
        rw [he1] at hrec
        rw [hrec]
        have e1 : j + 1 + k + 1 = j + (k + 1) + 1 := by omega
        have e2 : j + 1 + k = j + (k + 1) := by omega
        rw [e1, e2]
      · rw [if_neg h2] at hca
        have hbig : ¬ Nat.fib (j + (k + 1) + 1) ≤ U32_MAX := by
          intro hle
          exact h2 (le_trans (Nat.fib_mono (by omega)) hle)
        rw [if_neg hbig]
        simp only [fibArrayGo, hca]

theorem fib_array_eq_fibSpec (n : Nat) : fib_array n = fibSpec n := by
  rcases Nat.eq_zero_or_pos n with h0 | hpos
  · subst h0; decide
  unfold fib_array fibSpec
  have hne : ¬ n = 0 := by omega
  rw [if_neg hne]
  have hinit : ((0 : Nat), (1 : Nat)) = (Nat.fib 0, Nat.fib 1) := by decide
  rw [hinit, fibArrayGo_spec (n - 1) 0 (by decide)]
  have harith : 0 + (n - 1) + 1 = n := by omega
  have harith2 : 0 + (n - 1) = n - 1 := by omega
  rw [harith, harith2]
  by_cases h : Nat.fib n ≤ U32_MAX
  · rw [if_pos h, if_pos h]
    rfl
  · rw [if_neg h, if_neg h]
    rfl

theorem lazyState_spec : ∀ n : Nat, 1 ≤ n →
    lazyState n
      = if Nat.fib n ≤ U32_MAX then some (Nat.fib n, Nat.fib (n - 1)) else none := by
  intro n
  induction n with
  | zero => intro h; omega
  | succ n ih =>
      intro _
      rcases Nat.eq_zero_or_pos n with h0 | hpos
      · subst h0; decide
      have hstep : lazyState (n + 1) = (lazyState n).bind fibStep := rfl
      rw [hstep, ih hpos]
      by_cases h : Nat.fib n ≤ U32_MAX
      · rw [if_pos h]
        have hsum : Nat.fib n + Nat.fib (n - 1) = Nat.fib (n + 1) := by
          have hf := fib_add_sub (n + 1) (by omega)
          have e1 : n + 1 - 2 = n - 1 := by omega
          have e2 : n + 1 - 1 = n := by omega
          rw [e1, e2] at hf
          omega
        have hbody : fibStep (Nat.fib n, Nat.fib (n - 1))
            = if Nat.fib (n + 1) ≤ U32_MAX then some (Nat.fib (n + 1), Nat.fib n)
              else none := by
          unfold fibStep checked_add
          rw [hsum]
          by_cases h1 : Nat.fib (n + 1) ≤ U32_MAX
          · rw [if_pos h1, if_pos h1]
            rfl
          · rw [if_neg h1, if_neg h1]
            rfl
        have he : n + 1 - 1 = n := by omega
        rw [Option.some_bind, hbody, he]
      · rw [if_neg h]
        have hbig : ¬ Nat.fib (n + 1) ≤ U32_MAX := by
          intro hle
          exact h (le_trans (Nat.fib_mono (by omega)) hle)
        rw [if_neg hbig]
        rfl

theorem fib_lazy_eq_fibSpec (n : Nat) : fib_lazy n = fibSpec n := by
  rcases Nat.eq_zero_or_pos n with h0 | hpos
  · subst h0; decide
  unfold fib_lazy fibSpec
  rw [lazyState_spec n hpos]
  by_cases h : Nat.fib n ≤ U32_MAX
  · rw [if_pos h, if_pos h]
    rfl
  · rw [if_neg h, if_neg h]
    rfl

theorem foldl_eq_lazyState : ∀ n : Nat,
    (List.range n).foldl foldF (some (0, 1)) = lazyState n := by
  intro n
  induction n with
  | zero => rfl
  | succ n ih =>
      rw [List.range_succ, List.foldl_append, ih]
      rfl

theorem fib_fold_eq_fib_lazy (n : Nat) : fib_fold n = fib_lazy n := by
  unfold fib_fold fib_lazy
  rw [foldl_eq_lazyState]

theorem fib_fold_eq_fibSpec (n : Nat) : fib_fold n = fibSpec n := by
  rw [fib_fold_eq_fib_lazy, fib_lazy_eq_fibSpec]

theorem F_TABLE_eq_map_fib : F_TABLE = (List.range 48).map Nat.fib := by decide

theorem fib_lookup_eq_fibSpec (n : Nat) : fib_lookup n = fibSpec n := by
  unfold fib_lookup fibSpec
  rw [F_TABLE_eq_map_fib]
  by_cases h : n < 48
  · rw [List.getElem?_map, List.getElem?_range h,
        if_pos ((fib_le_max_iff n).mpr (by omega))]
    rfl
  · have hnone : ((List.range 48).map Nat.fib)[n]? = none := by
      apply List.getElem?_eq_none
      simpa using by omega
    rw [hnone, if_neg]
    intro hle
    have := (fib_le_max_iff n).mp hle
    omega

theorem fibRegLoop_succ2 (x y m : Nat) :
    fibRegLoop x y (m + 2)
      = if y &&& HI = 0 then
          if ((x + y) % U32_MOD) &&& HI = 0 then
            fibRegLoop ((x + y) % U32_MOD) ((y + (x + y) % U32_MOD) % U32_MOD) m
          else ((x + y) % U32_MOD, y, m + 2)
        else (x, y, m + 2) := rfl

theorem hi_lt_mod : HI < U32_MOD := by decide

theorem hi_double : HI + HI = U32_MOD := by decide

theorem fibRegLoop_complete : ∀ (k j : Nat), Nat.fib (2 * j + 2 * k) < HI →
    fibRegLoop (Nat.fib (2 * j)) (Nat.fib (2 * j + 1)) (2 * k)
      = (Nat.fib (2 * j + 2 * k), Nat.fib (2 * j + 2 * k + 1), 0) := by
  intro k
  induction k with
  | zero =>
      intro j h
      simp only [Nat.mul_zero, Nat.add_zero]
      rfl
  | succ k ih =>
      intro j h
      have hidx : 2 * j + 2 * (k + 1) = 2 * j + 2 * k + 2 := by omega
      rw [hidx] at h ⊢
      have hfuel : 2 * (k + 1) = 2 * k + 2 := by omega
      rw [hfuel, fibRegLoop_succ2]
      have hy : Nat.fib (2 * j + 1) < HI := lt_of_le_of_lt (Nat.fib_mono (by omega)) h
      have hyU : Nat.fib (2 * j + 1) < U32_MOD := lt_trans hy hi_lt_mod
      have hx2v : Nat.fib (2 * j) + Nat.fib (2 * j + 1) = Nat.fib (2 * j + 2) := by
        have hf := @Nat.fib_add_two (2 * j)
        omega
      have hx2 : Nat.fib (2 * j + 2) < HI := lt_of_le_of_lt (Nat.fib_mono (by omega)) h
      have hx2U : Nat.fib (2 * j + 2) < U32_MOD := lt_trans hx2 hi_lt_mod
      rw [hx2v, Nat.mod_eq_of_lt hx2U,
          if_pos ((and_hi_eq_zero_iff _ hyU).mpr hy),
          if_pos ((and_hi_eq_zero_iff _ hx2U).mpr hx2)]
      have hy2v : Nat.fib (2 * j + 1) + Nat.fib (2 * j + 2) = Nat.fib (2 * j + 3) := by
        have hf := @Nat.fib_add_two (2 * j + 1)
        have ea : 2 * j + 1 + 2 = 2 * j + 3 := by omega
        have eb : 2 * j + 1 + 1 = 2 * j + 2 := by omega
        rw [ea, eb] at hf
        omega
      have hy2U : Nat.fib (2 * j + 3) < U32_MOD := by
        have := hi_double
        omega
      rw [hy2v, Nat.mod_eq_of_lt hy2U]
      have hih := ih (j + 1) (by
        have e : 2 * (j + 1) + 2 * k = 2 * j + 2 * k + 2 := by omega
        rw [e]
        exact h)
      rw [show 2 * (j + 1) = 2 * j + 2 from by omega] at hih
      rw [show 2 * j + 2 + 1 = 2 * j + 3 from by omega] at hih
      rw [show 2 * j + 2 + 2 * k + 1 = 2 * j + 2 * k + 2 + 1 from by omega] at hih
      rw [show 2 * j + 2 + 2 * k = 2 * j + 2 * k + 2 from by omega] at hih
      exact hih

theorem fibRegLoop_break : ∀ (k j : Nat), Nat.fib (2 * j + 1) < U32_MOD →
    HI ≤ Nat.fib (2 * j + 2 * k + 2) →
    0 < (fibRegLoop (Nat.fib (2 * j)) (Nat.fib (2 * j + 1)) (2 * k + 2)).2.2 := by
  intro k
  induction k with
  | zero =>
      intro j hyU hbig
      rw [fibRegLoop_succ2]
      have e0 : 2 * j + 2 * 0 + 2 = 2 * j + 2 := by omega
      rw [e0] at hbig
      by_cases hy : Nat.fib (2 * j + 1) &&& HI = 0
      · rw [if_pos hy]
        have hylt : Nat.fib (2 * j + 1) < HI := (and_hi_eq_zero_iff _ hyU).mp hy
        have hx2v : Nat.fib (2 * j) + Nat.fib (2 * j + 1) = Nat.fib (2 * j + 2) := by
          have hf := @Nat.fib_add_two (2 * j)
          omega
        have hmon : Nat.fib (2 * j) ≤ Nat.fib (2 * j + 1) := Nat.fib_mono (by omega)
        have hx2U : Nat.fib (2 * j + 2) < U32_MOD := by
          have := hi_double
          omega
        rw [hx2v, Nat.mod_eq_of_lt hx2U]
        have hx2hi : ¬ Nat.fib (2 * j + 2) &&& HI = 0 := by
          rw [and_hi_eq_zero_iff _ hx2U]
          omega
        rw [if_neg hx2hi]
        show 0 < 2 * 0 + 2
        omega
      · rw [if_neg hy]
        show 0 < 2 * 0 + 2
        omega
  | succ k ih =>
      intro j hyU hbig
      rw [fibRegLoop_succ2]
      have e0 : 2 * j + 2 * (k + 1) + 2 = 2 * j + 2 * k + 4 := by omega
      rw [e0] at hbig
      by_cases hy : Nat.fib (2 * j + 1) &&& HI = 0
      · rw [if_pos hy]
        have hylt : Nat.fib (2 * j + 1) < HI := (and_hi_eq_zero_iff _ hyU).mp hy
        have hx2v : Nat.fib (2 * j) + Nat.fib (2 * j + 1) = Nat.fib (2 * j + 2) := by
          have hf := @Nat.fib_add_two (2 * j)
          omega
        have hmon : Nat.fib (2 * j) ≤ Nat.fib (2 * j + 1) := Nat.fib_mono (by omega)
        have hx2U : Nat.fib (2 * j + 2) < U32_MOD := by
          have := hi_double
          omega
        rw [hx2v, Nat.mod_eq_of_lt hx2U]
        by_cases hx2 : Nat.fib (2 * j + 2) &&& HI = 0
        · rw [if_pos hx2]
          have hx2lt : Nat.fib (2 * j + 2) < HI := (and_hi_eq_zero_iff _ hx2U).mp hx2
          have hy2v : Nat.fib (2 * j + 1) + Nat.fib (2 * j + 2) = Nat.fib (2 * j + 3) := by
            have hf := @Nat.fib_add_two (2 * j + 1)
            have ea : 2 * j + 1 + 2 = 2 * j + 3 := by omega
            have eb : 2 * j + 1 + 1 = 2 * j + 2 := by omega
            rw [ea, eb] at hf
            omega
          have hy2U : Nat.fib (2 * j + 3) < U32_MOD := by
            have := hi_double
            omega
          rw [hy2v, Nat.mod_eq_of_lt hy2U]
          have hih := ih (j + 1) (by
            have e : 2 * (j + 1) + 1 = 2 * j + 3 := by omega
            rw [e]
            exact hy2U) (by
            have e : 2 * (j + 1) + 2 * k + 2 = 2 * j + 2 * k + 4 := by omega
            rw [e]
            exact hbig)
          rw [show 2 * (j + 1) = 2 * j + 2 from by omega] at hih
          rw [show 2 * j + 2 + 1 = 2 * j + 3 from by omega] at hih
          rw [show (2 * k + 2 : Nat) = 2 * (k + 1) from by omega] at hih
          exact hih
        · rw [if_neg hx2]
          show 0 < 2 * (k + 1) + 2
          omega
      · rw [if_neg hy]
        show 0 < 2 * (k + 1) + 2
        omega

theorem fib_registered_eq_fibSpec (n : Nat) : fib_registered n = fibSpec n := by
  unfold fib_registered fibSpec
  have hf0 : Nat.fib 0 = 0 := rfl
  have hf1 : Nat.fib 1 = 1 := rfl
  rcases Nat.mod_two_eq_zero_or_one n with he | ho
  · -- even n: the counter is n itself and n & 1 = 0
    have hm : 2 * (n / 2) = n := by omega
    have hand : n &&& 1 = 0 := by rw [Nat.and_one_is_mod, he]
    rw [hm, hand]
    by_cases hhi : Nat.fib n < HI
    · have hcomp := fibRegLoop_complete (n / 2) 0 (by
        have e : 2 * 0 + 2 * (n / 2) = n := by omega
        rw [e]
        exact hhi)
      have e : 2 * 0 + 2 * (n / 2) = n := by omega
      rw [e, hf0, hf1] at hcomp
      rw [hm] at hcomp
      rw [hcomp]
      have hle : Nat.fib n ≤ U32_MAX := by
        have := hi_lt_mod
        unfold HI at hhi
        unfold U32_MAX
        omega
      rw [if_pos hle]
      simp
    · have hn2 : 2 ≤ n := by
        by_contra hlt
        have h0 : n = 0 := by omega
        rw [h0, hf0] at hhi
        exact hhi (by decide)
      have hk : 2 * ((n - 2) / 2) + 2 = n := by omega
      have hbrk := fibRegLoop_break ((n - 2) / 2) 0 (by rw [Nat.mul_zero, Nat.zero_add, hf1]; decide)
        (by
          have e : 2 * 0 + 2 * ((n - 2) / 2) + 2 = n := by omega
          rw [e]
          omega)
      rw [Nat.mul_zero, Nat.zero_add, hf0, hf1, hk] at hbrk
      rw [if_pos hbrk, if_neg]
      intro hle
      have h47 : n ≤ 47 := (fib_le_max_iff n).mp hle
      have h46 : n ≤ 46 := by omega
      exact hhi ((fib_lt_hi_iff n).mpr h46)
  · -- odd n: the counter is n - 1 and n & 1 = 1
    have hm : 2 * (n / 2) = n - 1 := by omega
    have hand : n &&& 1 = 1 := by rw [Nat.and_one_is_mod, ho]
    rw [hm, hand]
    have hn1 : 1 ≤ n := by omega
    by_cases hhi : Nat.fib (n - 1) < HI
    · have hcomp := fibRegLoop_complete ((n - 1) / 2) 0 (by
        have e : 2 * 0 + 2 * ((n - 1) / 2) = n - 1 := by omega
        rw [e]
        exact hhi)
      have e : 2 * 0 + 2 * ((n - 1) / 2) = n - 1 := by omega
      rw [e, hf0, hf1] at hcomp
      have e2 : 2 * ((n - 1) / 2) = n - 1 := by omega
      rw [e2] at hcomp
      rw [hcomp]
      have hx0 : Nat.fib (n - 1) &&& HI = 0 :=
        (and_hi_eq_zero_iff _ (lt_trans hhi hi_lt_mod)).mpr hhi
      have hle : Nat.fib n ≤ U32_MAX := by
        apply (fib_le_max_iff n).mpr
        have h46 : n - 1 ≤ 46 := (fib_lt_hi_iff (n - 1)).mp hhi
        omega
      rw [if_pos hle]
      have e3 : n - 1 + 1 = n := by omega
      rw [e3]
      simp [hx0]
    · have hn3 : 3 ≤ n := by
        by_contra hlt
        have : n = 1 := by omega
        rw [this] at hhi
        exact hhi (by rw [show (1 - 1 : Nat) = 0 from rfl, hf0]; decide)
      have hk : 2 * ((n - 3) / 2) + 2 = n - 1 := by omega
      have hbrk := fibRegLoop_break ((n - 3) / 2) 0 (by rw [Nat.mul_zero, Nat.zero_add, hf1]; decide)
        (by
          have e : 2 * 0 + 2 * ((n - 3) / 2) + 2 = n - 1 := by omega
          rw [e]
          omega)
      rw [Nat.mul_zero, Nat.zero_add, hf0, hf1, hk] at hbrk
      rw [if_pos hbrk, if_neg]
      intro hle
      have h47 : n ≤ 47 := (fib_le_max_iff n).mp hle
      have h46 : n - 1 ≤ 46 := by omega
      exact hhi ((fib_lt_hi_iff (n - 1)).mpr h46)

theorem range_map_fib_getElem (i j : Nat) (h : j < i) :
    ((List.range i).map Nat.fib)[j]? = some (Nat.fib j) := by
  rw [List.getElem?_map, List.getElem?_range h]
  rfl

theorem fibVecGoI_spec : ∀ (k i : Nat), 2 ≤ i → i + k ≤ 48 →
    fibVecGoI ((List.range i).map Nat.fib) i k
      = some ((List.range (i + k)).map Nat.fib) := by
  intro k
  induction k with
  | zero => intro i hi hik; rfl
  | succ k ih =>
      intro i hi hik
      have hle : Nat.fib i ≤ U32_MAX := (fib_le_max_iff i).mpr (by omega)
      have hstep : fibVecGoI ((List.range i).map Nat.fib) i (k + 1)
          = fibVecGoI ((List.range (i + 1)).map Nat.fib) (i + 1) k := by
        simp only [fibVecGoI,
          range_map_fib_getElem i (i - 2) (by omega),
          range_map_fib_getElem i (i - 1) (by omega),
          fib_add_sub i hi]
        rw [if_pos hle, ← range_map_fib_succ]
      rw [hstep, ih (i + 1) (by omega) (by omega)]
      have harith : i + 1 + k = i + (k + 1) := by omega
      rw [harith]

theorem fibVecI_no_panic (n : Nat) : fibVecI n = some (fib_vec n) := by
  unfold fibVecI fib_vec
  rcases Nat.eq_zero_or_pos n with h0 | hpos
  · subst h0; rfl
  rcases Nat.lt_or_ge n 48 with hlt | hge
  · have hne : ¬ n = 0 := by omega
    rw [if_neg hne, if_neg (by omega : ¬ 48 ≤ n), if_neg hne, if_neg (by omega : ¬ 48 ≤ n)]
    have hinit : ([0, 1] : List Nat) = (List.range 2).map Nat.fib := by decide
    rw [hinit, fibVecGoI_spec (n - 1) 2 (by omega) (by omega),
        fibVecGo_spec (n - 1) 2 (by omega) (by omega)]
    have harith : 2 + (n - 1) = n + 1 := by omega
    rw [harith, range_map_fib_succ, List.getLastD_concat, Option.some_bind,
        List.getLast?_concat]
    rfl
  · have hne : ¬ n = 0 := by omega
    rw [if_neg hne, if_pos hge, if_neg hne, if_pos hge]

theorem fibVecFancyGoI_spec : ∀ (k i : Nat), 2 ≤ i → Nat.fib (i - 1) ≤ U32_MAX →
    fibVecFancyGoI ((List.range i).map Nat.fib) i k
      = some (if Nat.fib (i + k - 1) ≤ U32_MAX
              then some ((List.range (i + k)).map Nat.fib) else none) := by
  intro k
  induction k with
  | zero =>
      intro i hi hprev
      have h : i + 0 - 1 = i - 1 := by omega
      rw [h, if_pos hprev]
      rfl
  | succ k ih =>
      intro i hi hprev
      have hca : checked_add (Nat.fib (i - 2)) (Nat.fib (i - 1))
          = if Nat.fib i ≤ U32_MAX then some (Nat.fib i) else none := by
        unfold checked_add
        rw [fib_add_sub i hi]
      by_cases h : Nat.fib i ≤ U32_MAX
      · rw [if_pos h] at hca
        have hstep : fibVecFancyGoI ((List.range i).map Nat.fib) i (k + 1)
            = fibVecFancyGoI ((List.range (i + 1)).map Nat.fib) (i + 1) k := by
          simp only [fibVecFancyGoI,
            range_map_fib_getElem i (i - 2) (by omega),
            range_map_fib_getElem i (i - 1) (by omega),
            hca, ← range_map_fib_succ]
        have hprev2 : Nat.fib (i + 1 - 1) ≤ U32_MAX := by
          have he : i + 1 - 1 = i := by omega
          rw [he]
          exact h
        rw [hstep, ih (i + 1) (by omega) hprev2]
        have h1 : i + 1 + k - 1 = i + (k + 1) - 1 := by omega
        have h2 : i + 1 + k = i + (k + 1) := by omega
        rw [h1, h2]
      · rw [if_neg h] at hca
        have hbig : ¬ Nat.fib (i + (k + 1) - 1) ≤ U32_MAX := by
          intro hle
          exact h (le_trans (Nat.fib_mono (by omega)) hle)
        rw [if_neg hbig]
        simp only [fibVecFancyGoI,
          range_map_fib_getElem i (i - 2) (by omega),
          range_map_fib_getElem i (i - 1) (by omega),
          hca]

theorem fibVecFancyI_no_panic (n : Nat) : fibVecFancyI n = some (fib_vec_fancy n) := by
  rcases Nat.eq_zero_or_pos n with h0 | hpos
  · subst h0; decide
  unfold fibVecFancyI fib_vec_fancy
  have hinit : ([0, 1] : List Nat) = (List.range 2).map Nat.fib := by decide
  rw [hinit, fibVecFancyGoI_spec (n - 1) 2 (by omega) (by decide),
      fibVecFancyGo_spec (n - 1) 2 (by omega) (by decide)]
  have harith : 2 + (n - 1) - 1 = n := by omega
  have harith2 : 2 + (n - 1) = n + 1 := by omega
  rw [harith, harith2]
  by_cases h : Nat.fib n ≤ U32_MAX
  · rw [if_pos h]
    simp [range_map_fib_getElem (n + 1) n (by omega)]
  · rw [if_neg h]
    rfl

theorem fibArrayI_no_panic (n : Nat) : fibArrayI n = some (fib_array n) := by
  unfold fibArrayI fib_array checkedSub
  rcases Nat.eq_zero_or_pos n with h0 | hpos
  · subst h0; rfl
  have hne : ¬ n = 0 := by omega
  rw [if_neg hne, if_neg hne, if_pos (by omega : 1 ≤ n)]
  rfl

theorem fibRegLoopI_succ2 (x y m : Nat) :
    fibRegLoopI x y (m + 2)
      = if y &&& HI = 0 then
          if ((x + y) % U32_MOD) &&& HI = 0 then
            fibRegLoopI ((x + y) % U32_MOD) ((y + (x + y) % U32_MOD) % U32_MOD) m
          else some (((x + y) % U32_MOD, y, m + 2))
        else some ((x, y, m + 2)) := rfl

theorem fibRegLoopI_eq : ∀ (k x y : Nat),
    fibRegLoopI x y (2 * k) = some (fibRegLoop x y (2 * k)) := by
  intro k
  induction k with
  | zero => intro x y; rfl
  | succ k ih =>
      intro x y
      rw [show 2 * (k + 1) = 2 * k + 2 from by omega, fibRegLoopI_succ2,
          fibRegLoop_succ2]
      by_cases hy : y &&& HI = 0
      · rw [if_pos hy, if_pos hy]
        by_cases hx2 : ((x + y) % U32_MOD) &&& HI = 0
        · rw [if_pos hx2, if_pos hx2]
          exact ih _ _
        · rw [if_neg hx2, if_neg hx2]
      · rw [if_neg hy, if_neg hy]

theorem fibRegisteredI_no_panic (n : Nat) : fibRegisteredI n = some (fib_registered n) := by
  unfold fibRegisteredI fib_registered
  rw [fibRegLoopI_eq (n / 2) 0 1]
  rfl

/-- C2: for every non-negative n, each of the seven integer-arithmetic
functions (fib_vec, fib_vec_fancy, fib_array, fib_registered,
fib_fold, fib_lazy, fib_lookup) returns present holding exactly the
mathematical F(n) if F(n) is at most 4294967295, and absent
otherwise; in particular none ever returns a wrapped-around value as
a present result. -/
theorem claim_C2_integer_implementations_exact (n : Nat) :
    fib_vec n = (if Nat.fib n ≤ 4294967295 then some (Nat.fib n) else none)
  ∧ fib_vec_fancy n = (if Nat.fib n ≤ 4294967295 then some (Nat.fib n) else none)
  ∧ fib_array n = (if Nat.fib n ≤ 4294967295 then some (Nat.fib n) else none)
  ∧ fib_registered n = (if Nat.fib n ≤ 4294967295 then some (Nat.fib n) else none)
  ∧ fib_fold n = (if Nat.fib n ≤ 4294967295 then some (Nat.fib n) else none)
  ∧ fib_lazy n = (if Nat.fib n ≤ 4294967295 then some (Nat.fib n) else none)
  ∧ fib_lookup n = (if Nat.fib n ≤ 4294967295 then some (Nat.fib n) else none) := by
  have hspec : fibSpec n
      = if Nat.fib n ≤ 4294967295 then some (Nat.fib n) else none := rfl
  refine ⟨?_, ?_, ?_, ?_, ?_, ?_, ?_⟩ <;> rw [← hspec]
  · exact fib_vec_eq_fibSpec n
  · exact fib_vec_fancy_eq_fibSpec n
  · exact fib_array_eq_fibSpec n
  · exact fib_registered_eq_fibSpec n
  · exact fib_fold_eq_fibSpec n
  · exact fib_lazy_eq_fibSpec n
  · exact fib_lookup_eq_fibSpec n

/-- C3: the functions are total and never panic.  The four functions
with panic candidates in their source (fib_vec: unwraps of gets and
debug-mode unchecked adds, guarded by the n = 0 and n >= 48 special
cases; fib_vec_fancy: the direct indexings dp[i-2], dp[i-1], dp[n];
fib_array: the usize subtraction n - 1; fib_registered: the m -= 2)
each agree with their panic-instrumented model, which never reaches a
panic (outer none).  The remaining functions contain no partial
operation at all: fib_fold and fib_lazy use only checked_add, and
fib_lookup uses the bounds-checked get, as their models show;
termination of every model is established by construction. -/
theorem claim_C3_no_panics (n : Nat) :
    fibVecI n = some (fib_vec n)
  ∧ fibVecFancyI n = some (fib_vec_fancy n)
  ∧ fibArrayI n = some (fib_array n)
  ∧ fibRegisteredI n = some (fib_registered n) :=
  ⟨fibVecI_no_panic n, fibVecFancyI_no_panic n, fibArrayI_no_panic n,
   fibRegisteredI_no_panic n⟩

/-- C4: for every non-negative n, fib_vec_fancy agrees with fib_vec
although it does no pre-filtering of n. -/
theorem claim_C4_fancy_equals_vec (n : Nat) : fib_vec_fancy n = fib_vec n := by
  rw [fib_vec_fancy_eq_fibSpec, fib_vec_eq_fibSpec]

/-- C5: fib_fold agrees with fib_array for every n, and the fold step
absorbs the absent state: once the accumulator is none, every
remaining fold step maps it to none. -/
theorem claim_C5_fold_equals_array :
    (∀ n : Nat, fib_fold n = fib_array n) ∧ ∀ p : Nat, foldF none p = none :=
  ⟨fun n => by rw [fib_fold_eq_fibSpec, fib_array_eq_fibSpec], fun _ => rfl⟩

/-- C6: in fib_lazy the exhausted generator state is absorbing (after
it becomes none every later pull yields nothing), and the drained
n-th term is present F(n) for n at most 47 and absent for n at least
48. -/
theorem claim_C6_lazy_exhaustion :
    (∀ k j : Nat, lazyState k = none → lazyState (k + j) = none)
  ∧ (∀ n : Nat, n ≤ 47 → fib_lazy n = some (Nat.fib n))
  ∧ (∀ n : Nat, 48 ≤ n → fib_lazy n = none) := by
  refine ⟨?_, ?_, ?_⟩
  · intro k j h
    induction j with
    | zero => exact h
    | succ j ihj =>
        have hstep : lazyState (k + (j + 1)) = (lazyState (k + j)).bind fibStep := rfl
        rw [hstep, ihj]
        rfl
  · intro n hn
    rw [fib_lazy_eq_fibSpec]
    unfold fibSpec
    rw [if_pos ((fib_le_max_iff n).mpr hn)]
  · intro n hn
    rw [fib_lazy_eq_fibSpec]
    unfold fibSpec
    rw [if_neg]
    intro hle
    have := (fib_le_max_iff n).mp hle
    omega

/-- C6 witness: the exhaustion theorem applied at concrete inputs:
the state after 48 pulls is exhausted so pull 49 stays exhausted,
fib_lazy 7 is present 13, and fib_lazy 50 is absent. -/
theorem claim_C6_witness :
    lazyState 49 = none ∧ fib_lazy 7 = some 13 ∧ fib_lazy 50 = none := by
  refine ⟨?_, ?_, ?_⟩
  · exact claim_C6_lazy_exhaustion.1 48 1 (by decide)
  · have h := claim_C6_lazy_exhaustion.2.1 7 (by decide)
    rw [h]
    decide
  · exact claim_C6_lazy_exhaustion.2.2 50 (by decide)

/-- C7: the static table is exactly the 48 values F(0) .. F(47) in
order, the four boundary entries have the stated values, and lookup
is present F(n) exactly for n at most 47. -/
theorem claim_C7_lookup_table :
    F_TABLE = (List.range 48).map Nat.fib
  ∧ fib_lookup 44 = some 701408733
  ∧ fib_lookup 45 = some 1134903170
  ∧ fib_lookup 46 = some 1836311903
  ∧ fib_lookup 47 = some 2971215073
  ∧ ∀ n : Nat, fib_lookup n = if n ≤ 47 then some (Nat.fib n) else none := by
  refine ⟨F_TABLE_eq_map_fib, by decide, by decide, by decide, by decide, ?_⟩
  intro n
  rw [fib_lookup_eq_fibSpec]
  unfold fibSpec
  by_cases h : n ≤ 47
  · rw [if_pos ((fib_le_max_iff n).mpr h), if_pos h]
  · rw [if_neg, if_neg h]
    intro hle
    exact h ((fib_le_max_iff n).mp hle)

/-- C10: whenever the fib_registered loop exits normally (final
counter 0), the register x has its high bit clear; hence for odd n
the final absent branch is unreachable (the result is present y), and
for even n the returned x is the exact mathematical F(n), never a
wrapped value. -/
theorem claim_C10_loop_exit_high_bit_clear (n : Nat)
    (h : (fibRegLoop 0 1 (2 * (n / 2))).2.2 = 0) :
    (fibRegLoop 0 1 (2 * (n / 2))).1 &&& HI = 0
  ∧ (n &&& 1 = 0 → fib_registered n = some (Nat.fib n))
  ∧ (n &&& 1 ≠ 0 → fib_registered n = some (fibRegLoop 0 1 (2 * (n / 2))).2.1) := by
  have hf0 : Nat.fib 0 = 0 := rfl
  have hf1 : Nat.fib 1 = 1 := rfl
  rcases Nat.mod_two_eq_zero_or_one n with he | ho
  · have hm : 2 * (n / 2) = n := by omega
    have hand : n &&& 1 = 0 := by rw [Nat.and_one_is_mod, he]
    rw [hm] at h ⊢
    by_cases hhi : Nat.fib n < HI
    · have hcomp := fibRegLoop_complete (n / 2) 0 (by
        have e : 2 * 0 + 2 * (n / 2) = n := by omega
        rw [e]
        exact hhi)
      have e : 2 * 0 + 2 * (n / 2) = n := by omega
      rw [e, hf0, hf1] at hcomp
      rw [hm] at hcomp
      rw [hcomp]
      refine ⟨?_, ?_, ?_⟩
      · show Nat.fib n &&& HI = 0
        exact (and_hi_eq_zero_iff _ (lt_trans hhi hi_lt_mod)).mpr hhi
      · intro _
        rw [fib_registered_eq_fibSpec]
        unfold fibSpec
        rw [if_pos]
        have hlt := hi_lt_mod
        unfold HI at hhi
        unfold U32_MAX
        omega
      · intro hodd
        exact absurd hand hodd
    · exfalso
      have hn2 : 2 ≤ n := by
        by_contra hlt
        have h0 : n = 0 := by omega
        rw [h0, hf0] at hhi
        exact hhi (by decide)
      have hk : 2 * ((n - 2) / 2) + 2 = n := by omega
      have hbrk := fibRegLoop_break ((n - 2) / 2) 0
        (by rw [Nat.mul_zero, Nat.zero_add, hf1]; decide)
        (by
          have e : 2 * 0 + 2 * ((n - 2) / 2) + 2 = n := by omega
          rw [e]
          omega)
      rw [Nat.mul_zero, Nat.zero_add, hf0, hf1, hk] at hbrk
      omega
  · have hm : 2 * (n / 2) = n - 1 := by omega
    have hand : n &&& 1 = 1 := by rw [Nat.and_one_is_mod, ho]
    have hn1 : 1 ≤ n := by omega
    rw [hm] at h ⊢
    by_cases hhi : Nat.fib (n - 1) < HI
    · have hcomp := fibRegLoop_complete ((n - 1) / 2) 0 (by
        have e : 2 * 0 + 2 * ((n - 1) / 2) = n - 1 := by omega
        rw [e]
        exact hhi)
      have e : 2 * 0 + 2 * ((n - 1) / 2) = n - 1 := by omega
      rw [e, hf0, hf1] at hcomp
      have e2 : 2 * ((n - 1) / 2) = n - 1 := by omega
      rw [e2] at hcomp
      have e3 : n - 1 + 1 = n := by omega
      rw [e3] at hcomp
      rw [hcomp]
      have hle : Nat.fib n ≤ U32_MAX := by
        apply (fib_le_max_iff n).mpr
        have h46 : n - 1 ≤ 46 := (fib_lt_hi_iff (n - 1)).mp hhi
        omega
      refine ⟨?_, ?_, ?_⟩
      · show Nat.fib (n - 1) &&& HI = 0
        exact (and_hi_eq_zero_iff _ (lt_trans hhi hi_lt_mod)).mpr hhi
      · intro heven
        rw [hand] at heven
        exact absurd heven (by decide)
      · intro _
        rw [fib_registered_eq_fibSpec]
        unfold fibSpec
        rw [if_pos hle]
    · exfalso
      have hn3 : 3 ≤ n := by
        by_contra hlt
        have h1 : n = 1 := by omega
        rw [h1] at hhi
        exact hhi (by rw [show (1 - 1 : Nat) = 0 from rfl, hf0]; decide)
      have hk : 2 * ((n - 3) / 2) + 2 = n - 1 := by omega
      have hbrk := fibRegLoop_break ((n - 3) / 2) 0
        (by rw [Nat.mul_zero, Nat.zero_add, hf1]; decide)
        (by
          have e : 2 * 0 + 2 * ((n - 3) / 2) + 2 = n - 1 := by omega
          rw [e]
          omega)
      rw [Nat.mul_zero, Nat.zero_add, hf0, hf1, hk] at hbrk
      omega

/-- C10 witness: the theorem applied at n = 10, whose loop exits
normally with counter 0. -/
theorem claim_C10_witness :
    (fibRegLoop 0 1 (2 * (10 / 2))).1 &&& HI = 0
  ∧ (10 &&& 1 = 0 → fib_registered 10 = some (Nat.fib 10))
  ∧ (10 &&& 1 ≠ 0 → fib_registered 10 = some (fibRegLoop 0 1 (2 * (10 / 2))).2.1) :=
  claim_C10_loop_exit_high_bit_clear 10 (by decide)

end FibTour
